import Mathlib

/-!
Verification of the react-chess search engine and multi-backend provider
layer.  Definitions are shallow embeddings of the TypeScript sources:

* `src/providers/adapters.ts`      — backend response normalisation
* `src/providers/RemoteProvider.ts` — HTTP request / error extraction / undo guard
* the backend context (provider selection, health checking)
* `src/services/ChessAI.ts`        — minimax search with alpha-beta pruning

The external rules engine (`@rumenx/chess`) is modelled abstractly: a
position type together with the operations the search consumes, plus the
make/undo symmetry the spec assumes of it.
-/

namespace ReactChess

/-- Player color, `PlayerColor` in `providers/types.ts`. -/
inductive PlayerColor
  | white
  | black
  deriving DecidableEq, Repr

/-- Canonical game status, `GameStatusNorm` in `providers/types.ts`. -/
inductive GameStatusNorm
  | active
  | check
  | checkmate
  | stalemate
  | draw
  | insufficient_material
  | threefold_repetition
  | fifty_move_rule
  deriving DecidableEq, Repr

/-- A normalised piece (`NormPiece`).  The TS cast `obj.type as NormPiece['type']`
is unchecked, so the piece type is kept as the raw optional string. -/
structure NormPiece where
  ptype : Option String
  color : PlayerColor
  deriving DecidableEq, Repr

/-- A normalised move (`NormMove`).  `mfrom`/`mto` model the `from`/`to`
fields (`from` is a Lean keyword). -/
structure NormMove where
  mfrom : String
  mto : String
  san : Option String
  piece : Option NormPiece
  captured : Option NormPiece
  promotion : Option String
  deriving DecidableEq, Repr

/-- A normalised game state (`NormGameState`). -/
structure NormGameState where
  id : String
  fen : String
  turn : PlayerColor
  status : GameStatusNorm
  check : Bool
  moveCount : Nat
  moveHistory : List NormMove
  board : Option (List (List (Option NormPiece)))
  result : String
  gameOver : Bool
  deriving DecidableEq, Repr

/-- A raw piece value as a backend may send it: a string code (for example
"P" or "q") or a structured object with optional type/color fields.
`Option RawPieceVal` models a possibly absent field. -/
inductive RawPieceVal
  | strv (s : String)
  | objv (ptype : Option String) (color : Option String)
  deriving DecidableEq, Repr

/-- JavaScript truthiness of a present raw piece value: the empty string is
falsy, every object is truthy. -/
def RawPieceVal.truthy : RawPieceVal → Bool
  | .strv s => s != ""
  | .objv _ _ => true

/-- Truthiness of a possibly absent raw piece field (`raw.piece ? ... : undefined`). -/
def rawPieceTruthy : Option RawPieceVal → Bool
  | none => false
  | some v => v.truthy

/-- `assertColor` from `adapters.ts`: accepts `white`/`black`/`w`/`b` and maps
every other value (including an absent one) to `white`. -/
def assertColor (c : Option String) : PlayerColor :=
  if c = some "white" then .white
  else if c = some "black" then .black
  else if c = some "w" then .white
  else if c = some "b" then .black
  else .white

/-- Membership of a possibly absent string in a list
(`[...].includes(raw.status as string)`; `includes(undefined)` is false). -/
def optMem (s : Option String) (l : List String) : Bool :=
  match s with
  | some v => decide (v ∈ l)
  | none => false

-- ===========================================================================
-- rust-chess adapter
-- ===========================================================================

/-- The single-character piece-code table used by `rustNormPiece`. -/
def charPieceType (s : String) : Option String :=
  if s = "P" ∨ s = "p" then some "pawn"
  else if s = "N" ∨ s = "n" then some "knight"
  else if s = "B" ∨ s = "b" then some "bishop"
  else if s = "R" ∨ s = "r" then some "rook"
  else if s = "Q" ∨ s = "q" then some "queen"
  else if s = "K" ∨ s = "k" then some "king"
  else none

/-- `rustNormPiece`: structured objects are taken as-is (type cast unchecked,
color through `assertColor`); one-character strings go through the code table,
uppercase meaning white. -/
def rustNormPiece : RawPieceVal → Option NormPiece
  | .objv t c => some ⟨t, assertColor c⟩
  | .strv s =>
    if s.length = 1 then
      match charPieceType s with
      | some t => some ⟨some t, if s.toUpper = s then .white else .black⟩
      | none => none
    else none

/-- A truthiness-guarded piece field: `raw.piece ? rustNormPiece(raw.piece) : undefined`. -/
def rustPieceField (p : Option RawPieceVal) : Option NormPiece :=
  match p with
  | some v => if v.truthy then rustNormPiece v else none
  | none => none

/-- A raw move from the rust backend. -/
structure RustRawMove where
  mfrom : Option String
  mto : Option String
  san : Option String
  piece : Option RawPieceVal
  captured : Option RawPieceVal
  promotion : Option String
  deriving DecidableEq, Repr

/-- `rustNormMove`. -/
def rustNormMove (m : RustRawMove) : NormMove :=
  { mfrom := m.mfrom.getD ""
    mto := m.mto.getD ""
    san := m.san
    piece := rustPieceField m.piece
    captured := rustPieceField m.captured
    promotion := m.promotion }

/-- `rustNormBoard`: a non-array value becomes `undefined`; each cell is
truthiness-guarded and `rustNormPiece(cell) ?? null`. -/
def rustNormBoard (b : Option (List (List (Option RawPieceVal)))) :
    Option (List (List (Option NormPiece))) :=
  b.map (fun rows => rows.map (fun row => row.map rustPieceField))

/-- `rustNormStatus`: the lookup table over the rust status vocabulary with
`'active'` as the fallback for unrecognized strings. -/
def rustNormStatus (s : String) : GameStatusNorm :=
  if s = "active" then .active
  else if s = "check" then .check
  else if s = "checkmate" then .checkmate
  else if s = "stalemate" then .stalemate
  else if s = "draw" then .draw
  else if s = "insufficient_material" then .insufficient_material
  else if s = "threefold_repetition" then .threefold_repetition
  else if s = "fifty_move_rule" then .fifty_move_rule
  else .active

/-- The documented rust status vocabulary (the keys of the `rustNormStatus` table). -/
def rustDocumentedStatuses : List String :=
  ["active", "check", "checkmate", "stalemate", "draw",
   "insufficient_material", "threefold_repetition", "fifty_move_rule"]

/-- The terminal statuses tested by `rustNormGame` for `gameOver`. -/
def rustTerminalStatuses : List String :=
  ["checkmate", "stalemate", "draw", "insufficient_material",
   "threefold_repetition", "fifty_move_rule"]

/-- The draw statuses tested by `rustDeriveResult`. -/
def rustDrawStatuses : List String :=
  ["stalemate", "draw", "insufficient_material", "threefold_repetition",
   "fifty_move_rule"]

/-- `rustDeriveResult`: on checkmate the current player (to move) has lost. -/
def rustDeriveResult (status currentPlayer : Option String) : String :=
  if status = some "checkmate" then
    (if currentPlayer = some "white" then "0-1" else "1-0")
  else if optMem status rustDrawStatuses then "1/2-1/2"
  else "*"

/-- A raw rust-chess game response.  `id` models `String(raw.id)`. -/
structure RustRaw where
  id : String
  fen : Option String
  currentPlayer : Option String
  status : Option String
  check : Bool
  moveHistory : Option (List RustRawMove)
  board : Option (List (List (Option RawPieceVal)))
  deriving DecidableEq, Repr

/-- `rustNormGame`. -/
def rustNormGame (raw : RustRaw) : NormGameState :=
  let history := raw.moveHistory.getD []
  { id := raw.id
    fen := raw.fen.getD ""
    turn := assertColor raw.currentPlayer
    status := (raw.status.map rustNormStatus).getD .active
    check := raw.check
    moveCount := history.length
    moveHistory := history.map rustNormMove
    board := rustNormBoard raw.board
    result := rustDeriveResult raw.status raw.currentPlayer
    gameOver := optMem raw.status rustTerminalStatuses }

-- ===========================================================================
-- go-chess adapter
-- ===========================================================================

/-- `goNormStatus`: the go status lookup table with `'active'` fallback. -/
def goNormStatus (s : String) : GameStatusNorm :=
  if s = "in_progress" then .active
  else if s = "check" then .check
  else if s = "white_wins" then .checkmate
  else if s = "black_wins" then .checkmate
  else if s = "stalemate" then .stalemate
  else if s = "draw" then .draw
  else if s = "insufficient_material" then .insufficient_material
  else if s = "threefold_repetition" then .threefold_repetition
  else if s = "fifty_move_rule" then .fifty_move_rule
  else .active

/-- The documented go status vocabulary (the keys of the `goNormStatus` table). -/
def goDocumentedStatuses : List String :=
  ["in_progress", "check", "white_wins", "black_wins", "stalemate", "draw",
   "insufficient_material", "threefold_repetition", "fifty_move_rule"]

/-- The terminal statuses tested by `goNormGame` for `gameOver`. -/
def goTerminalStatuses : List String :=
  ["white_wins", "black_wins", "stalemate", "draw",
   "insufficient_material", "threefold_repetition", "fifty_move_rule"]

/-- The draw statuses tested by `goDeriveResult`. -/
def goDrawStatuses : List String :=
  ["stalemate", "draw", "insufficient_material", "threefold_repetition",
   "fifty_move_rule"]

/-- `goDeriveResult`. -/
def goDeriveResult (status : Option String) : String :=
  if status = some "white_wins" then "1-0"
  else if status = some "black_wins" then "0-1"
  else if optMem status goDrawStatuses then "1/2-1/2"
  else "*"

/-- `goNormPiece`: only structured objects are recognized. -/
def goNormPiece : RawPieceVal → Option NormPiece
  | .objv t c => some ⟨t, assertColor c⟩
  | .strv _ => none

/-- Truthiness-guarded go piece field. -/
def goPieceField (p : Option RawPieceVal) : Option NormPiece :=
  match p with
  | some v => if v.truthy then goNormPiece v else none
  | none => none

/-- A raw move from the go backend; `sanText` models its SAN-text field. -/
structure GoRawMove where
  mfrom : Option String
  mto : Option String
  sanText : Option String
  piece : Option RawPieceVal
  captured : Option RawPieceVal
  promotion : Option String
  deriving DecidableEq, Repr

/-- `goNormMove`. -/
def goNormMove (m : GoRawMove) : NormMove :=
  { mfrom := m.mfrom.getD ""
    mto := m.mto.getD ""
    san := m.sanText
    piece := goPieceField m.piece
    captured := goPieceField m.captured
    promotion := m.promotion }

/-- A raw go-chess game response (snake_case fields). -/
structure GoRaw where
  id : String
  fen : Option String
  active_color : Option String
  status : Option String
  move_history : Option (List GoRawMove)
  deriving DecidableEq, Repr

/-- `goNormGame`.  go-chess returns a text diagram instead of a board array,
so `board` is always absent. -/
def goNormGame (raw : GoRaw) : NormGameState :=
  let history := raw.move_history.getD []
  { id := raw.id
    fen := raw.fen.getD ""
    turn := assertColor raw.active_color
    status := (raw.status.map goNormStatus).getD .active
    check := raw.status == some "check"
    moveCount := history.length
    moveHistory := history.map goNormMove
    board := none
    result := goDeriveResult raw.status
    gameOver := optMem raw.status goTerminalStatuses }

-- ===========================================================================
-- js-chess / npm-chess adapter
-- ===========================================================================

/-- `jsNormPiece`: only structured objects are recognized. -/
def jsNormPiece : RawPieceVal → Option NormPiece
  | .objv t c => some ⟨t, assertColor c⟩
  | .strv _ => none

/-- Truthiness-guarded js piece field. -/
def jsPieceField (p : Option RawPieceVal) : Option NormPiece :=
  match p with
  | some v => if v.truthy then jsNormPiece v else none
  | none => none

/-- A raw move from the js backend (captured piece is `capturedPiece`). -/
structure JsRawMove where
  mfrom : Option String
  mto : Option String
  san : Option String
  piece : Option RawPieceVal
  capturedPiece : Option RawPieceVal
  promotion : Option String
  deriving DecidableEq, Repr

/-- `jsNormMove`. -/
def jsNormMove (m : JsRawMove) : NormMove :=
  { mfrom := m.mfrom.getD ""
    mto := m.mto.getD ""
    san := m.san
    piece := jsPieceField m.piece
    captured := jsPieceField m.capturedPiece
    promotion := m.promotion }

/-- A raw js-chess game response.  Boolean flags model JS truthiness of the
corresponding raw fields. -/
structure JsRaw where
  id : String
  fen : Option String
  turn : Option String
  gameOver : Bool
  checkmate : Bool
  stalemate : Bool
  inThreefoldRepetition : Bool
  inFiftyMoveRule : Bool
  check : Bool
  winner : Option String
  moveHistory : Option (List JsRawMove)
  deriving DecidableEq, Repr

/-- The status cascade inside `jsNormGame`. -/
def jsStatus (raw : JsRaw) : GameStatusNorm :=
  if raw.checkmate then .checkmate
  else if raw.stalemate then .stalemate
  else if raw.inThreefoldRepetition then .threefold_repetition
  else if raw.inFiftyMoveRule then .fifty_move_rule
  else if raw.gameOver then .draw
  else if raw.check then .check
  else .active

/-- `jsDeriveResult`. -/
def jsDeriveResult (raw : JsRaw) : String :=
  if raw.checkmate then (if raw.winner = some "white" then "1-0" else "0-1")
  else if raw.gameOver then "1/2-1/2"
  else "*"

/-- `jsNormGame`.  `gameOver` is taken directly from the raw flag. -/
def jsNormGame (raw : JsRaw) : NormGameState :=
  let history := raw.moveHistory.getD []
  { id := raw.id
    fen := raw.fen.getD ""
    turn := assertColor raw.turn
    status := jsStatus raw
    check := raw.check
    moveCount := history.length
    moveHistory := history.map jsNormMove
    board := none
    result := jsDeriveResult raw
    gameOver := raw.gameOver }

-- ===========================================================================
-- Backend selection & health checking (BackendContext)
-- ===========================================================================

/-- Backend identifiers (`BackendId` in `providers/types.ts`); `localBackend`
models the `'local'` id (`local` is a Lean keyword). -/
inductive BackendId
  | localBackend
  | rust
  | go
  | js
  deriving DecidableEq, Repr

/-- The condition `backendId === 'local' || backendId === 'js'` used by the
backend context for both provider construction and health checking. -/
def isLocalLike (id : BackendId) : Bool :=
  id == .localBackend || id == .js

/-- Default base URLs from `BACKEND_PRESETS` (the local preset has none). -/
def presetUrl : BackendId → Option String
  | .localBackend => none
  | .rust => some "http://localhost:8082"
  | .go => some "http://localhost:8080"
  | .js => some "http://localhost:8081"

/-- The kind of provider instance held by the backend context. -/
inductive ProviderKind
  | localProvider
  | remoteProvider (id : BackendId) (url : String)
  deriving DecidableEq, Repr

/-- The provider memo of the backend context: local-like ids get a
`LocalProvider`; others get a `RemoteProvider` at
`cfg.url ?? BACKEND_PRESETS[backendId].url ?? 'http://localhost:8083'`,
where `cfg.url` is the persisted override if any, else the preset. -/
def providerFor (id : BackendId) (override : Option String) : ProviderKind :=
  if isLocalLike id then .localProvider
  else .remoteProvider id (((override <|> presetUrl id)).getD "http://localhost:8083")

/-- Connectivity state: `connected` is `null` while checking. -/
structure ConnState where
  connected : Option Bool
  connectionError : Option String
  deriving DecidableEq, Repr

/-- The connectivity reset performed by `switchBackend`:
`setConnected(id === 'local' ? true : null)` and a cleared error. -/
def switchBackendConn (id : BackendId) : ConnState :=
  ⟨if id = .localBackend then some true else none, none⟩

/-- Outcome of the health-check fetch: an ok response, a non-ok HTTP status,
or a network/timeout failure with its message. -/
inductive HealthOutcome
  | ok
  | httpError (status : Nat)
  | netError (msg : String)
  deriving DecidableEq, Repr

/-- Result of one `checkConnection` run: the resulting connectivity state and
the list of URLs fetched during it. -/
structure CheckResult where
  conn : ConnState
  fetchedUrls : List String
  deriving DecidableEq, Repr

/-- The bounded timeout passed to the health-check fetch
(`AbortSignal.timeout(5000)`). -/
def healthCheckTimeoutMs : Nat := 5000

/-- `checkConnection`: local-like backends are marked connected with no fetch;
remote backends fetch `{url}/health` once (with `cfg.url ?? preset ?? ''`)
and resolve the connectivity state from the outcome. -/
def checkConnection (id : BackendId) (override : Option String)
    (outcome : HealthOutcome) : CheckResult :=
  if isLocalLike id then ⟨⟨some true, none⟩, []⟩
  else
    let url := ((override <|> presetUrl id)).getD ""
    match outcome with
    | .ok => ⟨⟨some true, none⟩, [url ++ "/health"]⟩
    | .httpError s =>
      ⟨⟨some false, some ("Health check returned " ++ toString s)⟩, [url ++ "/health"]⟩
    | .netError m => ⟨⟨some false, some m⟩, [url ++ "/health"]⟩

-- ===========================================================================
-- RemoteProvider: capabilities, undo guard, error extraction
-- ===========================================================================

/-- The remote backend ids accepted by the `RemoteProvider` constructor
(it rejects `'local'`). -/
inductive RemoteBackend
  | rust
  | go
  | js
  deriving DecidableEq, Repr

/-- `ProviderCapabilities` from `providers/types.ts`. -/
structure ProviderCapabilities where
  undo : Bool
  ai : Bool
  hint : Bool
  analysis : Bool
  chat : Bool
  websocket : Bool
  pgn : Bool
  fenLoad : Bool
  deriving DecidableEq, Repr

/-- `REMOTE_CAPS` from `RemoteProvider.ts`. -/
def REMOTE_CAPS : RemoteBackend → ProviderCapabilities
  | .rust => ⟨true, true, true, true, true, true, true, true⟩
  | .go => ⟨false, true, true, true, true, true, true, true⟩
  | .js => ⟨true, true, true, true, false, false, true, true⟩

/-- The adapter `apiPrefix` for each remote backend (`ADAPTERS` in adapters.ts). -/
def remoteApiPrefix : RemoteBackend → String
  | .rust => "/api"
  | .go => "/api"
  | .js => "/api/v1"

/-- The backend id string interpolated into the capability-error message. -/
def remoteBackendName : RemoteBackend → String
  | .rust => "rust"
  | .go => "go"
  | .js => "js"

/-- An HTTP request as issued by the provider. -/
structure HttpRequest where
  method : String
  url : String
  deriving DecidableEq, Repr

/-- `RemoteProvider.undoMove`: the capability guard throws before any request
is built; otherwise exactly one POST to `{prefix}/games/{id}/undo` is issued.
An `Except.error` therefore means zero fetch calls. -/
def undoMove (b : RemoteBackend) (baseUrl gameId : String) : Except String HttpRequest :=
  if (REMOTE_CAPS b).undo = false then
    .error ("Undo is not supported by the " ++ remoteBackendName b ++ " backend")
  else
    .ok ⟨"POST", baseUrl ++ remoteApiPrefix b ++ "/games/" ++ gameId ++ "/undo"⟩

/-- The typed error raised by the `request` helper. -/
structure ApiError where
  status : Nat
  code : String
  message : String
  deriving DecidableEq, Repr

/-- The `error` field of a JSON error body: absent, a plain string, or an
object with optional `code`/`message` fields. -/
inductive ErrorField
  | absent
  | strv (s : String)
  | objv (code : Option String) (message : Option String)
  deriving DecidableEq, Repr

/-- A JSON error body: the `error` field plus an optional top-level `message`. -/
structure JsonErrorBody where
  error : ErrorField
  message : Option String
  deriving DecidableEq, Repr

/-- JavaScript `String(x)` applied to a possibly-undefined string. -/
def jsString : Option String → String
  | some s => s
  | none => "undefined"

/-- `res.ok`: status in the 2xx range. -/
def resOk (status : Nat) : Bool :=
  200 ≤ status && status < 300

/-- The error normalisation in `request` for a non-ok JSON response:
`{error: {code, message}}` uses those fields (through `String(...)`);
`{error: string}` uses the string as the code and `body.message ?? statusText`
as the message; an absent `error` field falls back to code `UNKNOWN`. -/
def extractApiError (status : Nat) (statusText : String) (body : JsonErrorBody) : ApiError :=
  match body.error with
  | .objv c m => ⟨status, jsString c, jsString m⟩
  | .strv s => ⟨status, s, body.message.getD statusText⟩
  | .absent => ⟨status, "UNKNOWN", body.message.getD statusText⟩

/-- The JSON branch of `request`: parse, then raise on non-ok status. -/
def processJsonResponse (status : Nat) (statusText : String) (body : JsonErrorBody) :
    Except ApiError JsonErrorBody :=
  if resOk status then .ok body
  else .error (extractApiError status statusText body)

/-- The text/plain branch of `request`: a non-ok response raises
`ApiError(status, 'HTTP_ERROR', text)` with the body text verbatim. -/
def processTextResponse (status : Nat) (text : String) : Except ApiError String :=
  if resOk status then .ok text
  else .error ⟨status, "HTTP_ERROR", text⟩

-- ===========================================================================
-- ChessAI: difficulty, evaluation, minimax search (services/ChessAI.ts)
-- ===========================================================================

/-- `AIDifficulty` from `ChessAI.ts` (`random` is the legacy alias of `harmless`). -/
inductive AIDifficulty
  | harmless
  | easy
  | medium
  | hard
  | expert
  | godlike
  | random
  deriving DecidableEq, Repr

/-- `ChessAI.depthForLevel`. -/
def depthForLevel : AIDifficulty → Nat
  | .harmless => 0
  | .random => 0
  | .easy => 1
  | .medium => 2
  | .hard => 3
  | .expert => 4
  | .godlike => 5

/-- The depth throttle in `computeBestMove`: with more than 60 root moves and
a nominal depth above 3, the effective depth is clamped to 3. -/
def effectiveDepth (depth rootMoveCount : Nat) : Nat :=
  if 60 < rootMoveCount ∧ 3 < depth then 3 else depth

/-- Piece types of the `@rumenx/chess` library (a closed union in TS). -/
inductive PieceType
  | pawn
  | knight
  | bishop
  | rook
  | queen
  | king
  deriving DecidableEq, Repr

/-- A piece as the rules engine reports it. -/
structure EnginePiece where
  ptype : PieceType
  color : PlayerColor
  deriving DecidableEq, Repr

/-- A move as the rules engine reports it (the fields `ChessAI` consumes). -/
structure EngineMove where
  mfrom : String
  mto : String
  piece : EnginePiece
  captured : Option EnginePiece
  promotion : Option String
  deriving DecidableEq, Repr

/-- JavaScript number scores as used by the search: `-Infinity`, a finite
(integer) material score, or `Infinity`. -/
inductive Score
  | negInf
  | fin (v : Int)
  | posInf
  deriving DecidableEq, Repr

/-- Numeric order on scores (the JS `<=` on these values). -/
def Score.le : Score → Score → Bool
  | .negInf, _ => true
  | .fin _, .negInf => false
  | .fin a, .fin b => a ≤ b
  | .fin _, .posInf => true
  | .posInf, .posInf => true
  | .posInf, _ => false

/-- Strict order (`a < b`, equivalently JS `b > a`). -/
def Score.lt (a b : Score) : Bool :=
  !(Score.le b a)

/-- `Math.max` on scores. -/
def smax (a b : Score) : Score :=
  if Score.le a b then b else a

/-- `Math.min` on scores. -/
def smin (a b : Score) : Score :=
  if Score.le b a then b else a

/-- Modelled from the spec: the external rules engine (`@rumenx/chess`,
consumed through `ChessEngine`) is out of scope of the repository and is
specified as a black box exposing legal-move generation, destructive
`makeMove`/`undo`, turn, board, termination and result queries, with
`undo` exactly reversing the most recent `makeMove`.  `applyMove` returns
the successor position, or `none` when the move is rejected (in which case
the position is unchanged). -/
structure RulesEngine where
  Position : Type
  legalMoves : Position → List EngineMove
  applyMove : Position → String → String → Option String → Option Position
  turn : Position → PlayerColor
  isGameOver : Position → Bool
  board : Position → List (List (Option EnginePiece))
  result : Position → String
  fen : Position → String

/-- The externally observable engine state: the current position plus the
undo stack of previous positions (make/undo symmetry of spec §3). -/
structure EngineState (R : RulesEngine) where
  pos : R.Position
  hist : List R.Position

/-- `engine.makeMove(from, to, promotion)`: on success the previous position
is pushed onto the undo stack; on rejection the state is unchanged and the
caller sees `none` (the JS `null`). -/
def emake (R : RulesEngine) (st : EngineState R) (m : EngineMove) :
    Option (EngineState R) :=
  (R.applyMove st.pos m.mfrom m.mto m.promotion).map
    (fun q => ⟨q, st.pos :: st.hist⟩)

/-- `engine.undo()`: restores the most recent pushed position (identity on an
empty history, where the JS engine returns `null`). -/
def eundo (R : RulesEngine) (st : EngineState R) : EngineState R :=
  match st.hist with
  | [] => st
  | p :: rest => ⟨p, rest⟩

/-- `ChessAI.pieceValue`. -/
def pieceValue (p : EnginePiece) : Int :=
  match p.ptype with
  | .pawn => 100
  | .knight => 300
  | .bishop => 300
  | .rook => 500
  | .queen => 900
  | .king => 10000

/-- `ChessAI.captureValue`: value of the captured piece, 0 for a quiet move. -/
def captureValue (m : EngineMove) : Int :=
  match m.captured with
  | none => 0
  | some p => pieceValue p

/-- The body of the inner board loop of `ChessAI.evaluate`: an empty cell is
skipped, a piece contributes its value positively for the maximizing color
and negatively for the opponent. -/
def cellScore (mc : PlayerColor) (acc2 : Int) (cell : Option EnginePiece) : Int :=
  match cell with
  | none => acc2
  | some p => acc2 + (if p.color = mc then pieceValue p else -pieceValue p)

/-- The nested board loop of `ChessAI.evaluate`. -/
def boardScore (b : List (List (Option EnginePiece))) (mc : PlayerColor) : Int :=
  b.foldl (fun acc row => row.foldl (cellScore mc) acc) 0

/-- `ChessAI.evaluate`: the material sum, overridden with `±Infinity` when the
position is terminal with a decisive result (`1-0`/`0-1`); terminal draws fall
through to the material sum. -/
def evaluate (R : RulesEngine) (st : EngineState R) (mc : PlayerColor) : Score :=
  let score := boardScore (R.board st.pos) mc
  if R.isGameOver st.pos then
    if R.result st.pos = "1-0" then (if mc = .white then .posInf else .negInf)
    else if R.result st.pos = "0-1" then (if mc = .black then .posInf else .negInf)
    else .fin score
  else .fin score

/-- One alpha-beta move loop of `ChessAI.minimax` (both the maximizing and the
minimizing variant).  `recur` is the child search; a rejected move is skipped
(`if (!applied) continue`), an applied move is undone before the value update,
and the loop exits early on `alpha >= beta`. -/
def abLoop (R : RulesEngine)
    (recur : Score → Score → EngineState R → Score × EngineState R)
    (isMax : Bool) :
    List EngineMove → Score → Score → Score → EngineState R →
      Score × EngineState R
  | [], value, _, _, st => (value, st)
  | m :: rest, value, alpha, beta, st =>
    match emake R st m with
    | none => abLoop R recur isMax rest value alpha beta st
    | some st1 =>
      let res := recur alpha beta st1
      let st3 := eundo R res.2
      if isMax then
        let value2 := smax value res.1
        let alpha2 := smax alpha value2
        if Score.le beta alpha2 then (value2, st3)
        else abLoop R recur isMax rest value2 alpha2 beta st3
      else
        let value2 := smin value res.1
        let beta2 := smin beta value2
        if Score.le beta2 alpha then (value2, st3)
        else abLoop R recur isMax rest value2 alpha beta2 st3

/-- `ChessAI.minimax`: evaluate at depth 0, at terminal positions and when no
legal move exists; otherwise run the maximizing or minimizing alpha-beta loop
depending on whether the side to move is the maximizing color. -/
def minimax (R : RulesEngine) :
    Nat → Score → Score → PlayerColor → EngineState R → Score × EngineState R
  | 0, _, _, mc, st => (evaluate R st mc, st)
  | d + 1, alpha, beta, mc, st =>
    if R.isGameOver st.pos then (evaluate R st mc, st)
    else
      let moves := R.legalMoves st.pos
      if moves.isEmpty then (evaluate R st mc, st)
      else if R.turn st.pos = mc then
        abLoop R (fun a b s => minimax R d a b mc s) true moves .negInf alpha beta st
      else
        abLoop R (fun a b s => minimax R d a b mc s) false moves .posInf alpha beta st

/-- The root move loop of `computeBestMove`: apply each candidate, search the
child with a full window, undo, and keep the strictly best score (initial
best score `-Infinity`). -/
def rootLoop (R : RulesEngine) (eff : Nat) (mc : PlayerColor) :
    List EngineMove → Option EngineMove → Score → EngineState R →
      Option EngineMove × EngineState R
  | [], best, _, st => (best, st)
  | m :: rest, best, bestScore, st =>
    match emake R st m with
    | none => rootLoop R eff mc rest best bestScore st
    | some st1 =>
      let res := minimax R (eff - 1) .negInf .posInf mc st1
      let st3 := eundo R res.2
      if Score.lt bestScore res.1 then rootLoop R eff mc rest (some m) res.1 st3
      else rootLoop R eff mc rest best bestScore st3

/-- `ChessAI.computeBestMove`.  `rnd` models the random draw at depth 0
(`Math.floor(Math.random() * legal.length)` is modelled as `rnd % length`).
The capture-first ordering is a stable sort by descending captured-piece
value.  Returns the chosen move (or `none`) together with the engine state
after the call. -/
def computeBestMove (R : RulesEngine) (st : EngineState R) (level : AIDifficulty)
    (rnd : Nat) : Option EngineMove × EngineState R :=
  let depth := depthForLevel level
  if depth = 0 then
    let legal := R.legalMoves st.pos
    if legal.length = 0 then (none, st)
    else (legal.get? (rnd % legal.length), st)
  else
    let legalMoves := R.legalMoves st.pos
    let eff := effectiveDepth depth legalMoves.length
    let mc := R.turn st.pos
    let ordered := legalMoves.mergeSort (fun a b => decide (captureValue b ≤ captureValue a))
    rootLoop R eff mc ordered none .negInf st

-- ===========================================================================
-- State-preservation lemmas for the search
-- ===========================================================================

theorem eundo_push (R : RulesEngine) (st : EngineState R) (q : R.Position) :
    eundo R ⟨q, st.pos :: st.hist⟩ = st := by
  rfl

theorem abLoop_state (R : RulesEngine)
    (recur : Score → Score → EngineState R → Score × EngineState R)
    (hrec : ∀ a b s, (recur a b s).2 = s) (isMax : Bool) :
    ∀ (moves : List EngineMove) (value alpha beta : Score) (st : EngineState R),
      (abLoop R recur isMax moves value alpha beta st).2 = st := by
  intro moves
  induction moves with
  | nil => intro value alpha beta st; rfl
  | cons m rest ih =>
    intro value alpha beta st
    simp only [abLoop]
    cases hap : R.applyMove st.pos m.mfrom m.mto m.promotion with
    | none =>
      simp only [emake, hap, Option.map_none']
      exact ih value alpha beta st
    | some q =>
      simp only [emake, hap, Option.map_some']
      have hres : (recur alpha beta ⟨q, st.pos :: st.hist⟩).2 = ⟨q, st.pos :: st.hist⟩ :=
        hrec alpha beta _
      simp only [hres, eundo_push]
      split
      · split
        · rfl
        · exact ih _ _ _ st
      · split
        · rfl
        · exact ih _ _ _ st

theorem minimax_state (R : RulesEngine) :
    ∀ (d : Nat) (alpha beta : Score) (mc : PlayerColor) (st : EngineState R),
      (minimax R d alpha beta mc st).2 = st := by
  intro d
  induction d with
  | zero => intro alpha beta mc st; rfl
  | succ d ih =>
    intro alpha beta mc st
    simp only [minimax]
    split
    · rfl
    · split
      · rfl
      · split
        · exact abLoop_state R _ (fun a b s => ih a b mc s) true _ _ _ _ _
        · exact abLoop_state R _ (fun a b s => ih a b mc s) false _ _ _ _ _

theorem rootLoop_state (R : RulesEngine) (eff : Nat) (mc : PlayerColor) :
    ∀ (moves : List EngineMove) (best : Option EngineMove) (bestScore : Score)
      (st : EngineState R),
      (rootLoop R eff mc moves best bestScore st).2 = st := by
  intro moves
  induction moves with
  | nil => intro best bestScore st; rfl
  | cons m rest ih =>
    intro best bestScore st
    simp only [rootLoop]
    cases hap : R.applyMove st.pos m.mfrom m.mto m.promotion with
    | none =>
      simp only [emake, hap, Option.map_none']
      exact ih best bestScore st
    | some q =>
      simp only [emake, hap, Option.map_some']
      have hres := minimax_state R (eff - 1) .negInf .posInf mc ⟨q, st.pos :: st.hist⟩
      simp only [hres, eundo_push]
      split
      · exact ih _ _ st
      · exact ih _ _ st

theorem computeBestMove_state (R : RulesEngine) (st : EngineState R)
    (level : AIDifficulty) (rnd : Nat) :
    (computeBestMove R st level rnd).2 = st := by
  simp only [computeBestMove]
  split
  · split
    · rfl
    · rfl
  · exact rootLoop_state R _ _ _ _ _ _

/-- C1: for every strength tier and every position (over any rules engine
satisfying make/undo symmetry), `computeBestMove` returns the engine in
exactly the state it started from — every `makeMove` issued during search,
at the root loop and inside `minimax` including alpha-beta cutoff exits, is
matched by its `undo` — so the externally observable FEN is unchanged. -/
theorem C1_search_side_effect_free (R : RulesEngine) (st : EngineState R)
    (level : AIDifficulty) (rnd : Nat) :
    (computeBestMove R st level rnd).2 = st ∧
    R.fen (computeBestMove R st level rnd).2.pos = R.fen st.pos := by
  refine ⟨computeBestMove_state R st level rnd, ?_⟩
  rw [computeBestMove_state R st level rnd]

-- ===========================================================================
-- C6: depth throttle
-- ===========================================================================

/-- C6: with more than 60 root legal moves and a nominal depth above 3 (only
the expert and godlike tiers), the effective search depth used by
`computeBestMove` for that call is exactly 3; in every other combination it
equals the tier's nominal depth (harmless/random=0, easy=1, medium=2, hard=3,
expert=4, godlike=5). -/
theorem C6_depth_throttle (lvl : AIDifficulty) (n : Nat) :
    (60 < n → 3 < depthForLevel lvl → effectiveDepth (depthForLevel lvl) n = 3) ∧
    (¬(60 < n ∧ 3 < depthForLevel lvl) →
      effectiveDepth (depthForLevel lvl) n = depthForLevel lvl) ∧
    (3 < depthForLevel lvl ↔ (lvl = .expert ∨ lvl = .godlike)) ∧
    depthForLevel .harmless = 0 ∧ depthForLevel .random = 0 ∧
    depthForLevel .easy = 1 ∧ depthForLevel .medium = 2 ∧
    depthForLevel .hard = 3 ∧ depthForLevel .expert = 4 ∧
    depthForLevel .godlike = 5 := by
  refine ⟨?_, ?_, ?_, rfl, rfl, rfl, rfl, rfl, rfl, rfl⟩
  · intro h1 h2
    simp [effectiveDepth, h1, h2]
  · intro h
    simp only [effectiveDepth, if_neg h]
  · cases lvl <;> decide

/-- C6 witness: godlike at 61 root moves is throttled to depth 3; at 60 root
moves it keeps its nominal depth 5. -/
theorem C6_depth_throttle_witness :
    effectiveDepth (depthForLevel .godlike) 61 = 3 ∧
    effectiveDepth (depthForLevel .godlike) 60 = 5 :=
  ⟨(C6_depth_throttle .godlike 61).1 (by decide) (by decide),
   (C6_depth_throttle .godlike 60).2.1 (by decide)⟩

-- ===========================================================================
-- C7: leaf/cutoff evaluation
-- ===========================================================================

/-- The signed material value of one piece from the maximizing color's
perspective (the spec's description of the evaluation weights). -/
def signedValue (mc : PlayerColor) (p : EnginePiece) : Int :=
  if p.color = mc then pieceValue p else -pieceValue p

/-- Specification-side material sum: the sum over all board pieces of the
signed material value. -/
def materialSumSpec (b : List (List (Option EnginePiece))) (mc : PlayerColor) : Int :=
  ((b.flatten.filterMap id).map (signedValue mc)).sum

theorem rowScore_eq (mc : PlayerColor) (row : List (Option EnginePiece)) :
    ∀ acc : Int,
      row.foldl (cellScore mc) acc =
        acc + ((row.filterMap id).map (signedValue mc)).sum := by
  induction row with
  | nil => intro acc; simp
  | cons c rest ih =>
    intro acc
    cases c with
    | none => simpa [cellScore] using ih acc
    | some p =>
      simp only [List.foldl_cons, List.filterMap_cons, List.map_cons, List.sum_cons,
        cellScore, id]
      rw [ih]
      simp [signedValue]
      ring

theorem boardScore_eq (mc : PlayerColor) (b : List (List (Option EnginePiece))) :
    boardScore b mc = materialSumSpec b mc := by
  suffices h : ∀ acc : Int,
      b.foldl (fun acc row => row.foldl (cellScore mc) acc) acc =
        acc + materialSumSpec b mc by
    simpa [boardScore] using h 0
  induction b with
  | nil => intro acc; simp [materialSumSpec]
  | cons r rest ih =>
    intro acc
    simp only [List.foldl_cons]
    rw [ih, rowScore_eq]
    simp [materialSumSpec, List.filterMap_append]
    ring

/-- C7: the leaf/cutoff evaluation is the signed material sum over all board
pieces (pawn=100, knight=300, bishop=300, rook=500, queen=900, king=10000);
on a terminal position with result `1-0` or `0-1` it is overridden to
`±Infinity` exactly when the winning side is the maximizing color, while
terminal draws evaluate to the plain material sum. -/
theorem C7_evaluation_material (R : RulesEngine) (st : EngineState R)
    (mc : PlayerColor) :
    (R.isGameOver st.pos = false →
      evaluate R st mc = .fin (materialSumSpec (R.board st.pos) mc)) ∧
    (R.isGameOver st.pos = true → R.result st.pos = "1-0" →
      evaluate R st mc = (if mc = .white then Score.posInf else Score.negInf)) ∧
    (R.isGameOver st.pos = true → R.result st.pos = "0-1" →
      evaluate R st mc = (if mc = .black then Score.posInf else Score.negInf)) ∧
    (R.isGameOver st.pos = true → R.result st.pos ≠ "1-0" → R.result st.pos ≠ "0-1" →
      evaluate R st mc = .fin (materialSumSpec (R.board st.pos) mc)) := by
  refine ⟨?_, ?_, ?_, ?_⟩
  · intro h
    simp [evaluate, h, boardScore_eq]
  · intro h hr
    simp [evaluate, h, hr]
  · intro h hr
    have h10 : R.result st.pos ≠ "1-0" := by
      rw [hr]; decide
    simp [evaluate, h, hr, h10]
  · intro h h10 h01
    simp [evaluate, h, h10, h01, boardScore_eq]

/-- A rules-engine instance with constant answers, used to instantiate the
search theorems on concrete inputs. -/
def constEngine (go : Bool) (res : String) (b : List (List (Option EnginePiece)))
    (moves : List EngineMove) : RulesEngine :=
  { Position := Unit
    legalMoves := fun _ => moves
    applyMove := fun _ _ _ _ => none
    turn := fun _ => .white
    isGameOver := fun _ => go
    board := fun _ => b
    result := fun _ => res
    fen := fun _ => "8/8/8/8/8/8/8/8 w - - 0 1" }

/-- A small concrete board: a white pawn, a black queen, a white king. -/
def sampleBoard : List (List (Option EnginePiece)) :=
  [[some ⟨.pawn, .white⟩, some ⟨.queen, .black⟩], [none, some ⟨.king, .white⟩]]

/-- C7 witness: on a non-terminal position the evaluation is the material sum
(100 − 900 + 10000 = 9200 here); on a terminal `1-0` position with white
maximizing it is `+Infinity`. -/
theorem C7_evaluation_material_witness :
    evaluate (constEngine false "*" sampleBoard []) ⟨(), []⟩ .white =
      .fin (materialSumSpec sampleBoard .white) ∧
    materialSumSpec sampleBoard .white = 9200 ∧
    evaluate (constEngine true "1-0" sampleBoard []) ⟨(), []⟩ .white = .posInf := by
  refine ⟨?_, by decide, ?_⟩
  · simpa using
      (C7_evaluation_material (constEngine false "*" sampleBoard []) ⟨(), []⟩ .white).1 rfl
  · simpa using
      (C7_evaluation_material (constEngine true "1-0" sampleBoard []) ⟨(), []⟩ .white).2.1
        rfl rfl

-- ===========================================================================
-- C8: empty-root null result, depth-0 legality and non-mutation
-- ===========================================================================

/-- C8: for every strength tier, `computeBestMove` returns `none` when the
root legal-move set is empty; at depth 0 (harmless/random), a non-`none`
result is always an element of the legal-move set, and the root position is
not touched at all. -/
theorem C8_terminal_null_and_depth0_legality (R : RulesEngine) (st : EngineState R)
    (level : AIDifficulty) (rnd : Nat) :
    (R.legalMoves st.pos = [] → (computeBestMove R st level rnd).1 = none) ∧
    (depthForLevel level = 0 →
      ∀ m, (computeBestMove R st level rnd).1 = some m → m ∈ R.legalMoves st.pos) ∧
    (depthForLevel level = 0 → (computeBestMove R st level rnd).2 = st) := by
  refine ⟨?_, ?_, ?_⟩
  · intro h
    simp only [computeBestMove]
    split
    · simp [h]
    · simp [h, rootLoop]
  · intro h0 m hm
    simp [computeBestMove, h0] at hm
    split at hm
    · simp at hm
    · exact List.getElem?_mem hm
  · intro _
    exact computeBestMove_state R st level rnd

/-- A single concrete legal move used to instantiate the search theorems. -/
def sampleMove : EngineMove :=
  ⟨"e2", "e4", ⟨.pawn, .white⟩, none, none⟩

/-- C8 witness: a medium search from a position with no legal moves returns
`none`; a harmless (depth-0) pick from a one-move position is that legal
move, and the position is untouched. -/
theorem C8_terminal_null_and_depth0_legality_witness :
    (computeBestMove (constEngine true "1/2-1/2" [] []) ⟨(), []⟩ .medium 0).1 = none ∧
    sampleMove ∈ (constEngine false "*" [] [sampleMove]).legalMoves () ∧
    (computeBestMove (constEngine false "*" [] [sampleMove]) ⟨(), []⟩ .harmless 3).2 =
      (⟨(), []⟩ : EngineState (constEngine false "*" [] [sampleMove])) := by
  refine ⟨(C8_terminal_null_and_depth0_legality (constEngine true "1/2-1/2" [] [])
    ⟨(), []⟩ .medium 0).1 rfl, ?_, ?_⟩
  · exact (C8_terminal_null_and_depth0_legality
      (constEngine false "*" [] [sampleMove]) ⟨(), []⟩ .harmless 3).2.1 rfl sampleMove rfl
  · exact (C8_terminal_null_and_depth0_legality
      (constEngine false "*" [] [sampleMove]) ⟨(), []⟩ .harmless 3).2.2 rfl

-- ===========================================================================
-- C2: gameOver / result consistency
-- ===========================================================================

theorem rustDeriveResult_ne_star (s : String) (cp : Option String) :
    rustDeriveResult (some s) cp ≠ "*" ↔ (s = "checkmate" ∨ s ∈ rustDrawStatuses) := by
  unfold rustDeriveResult
  by_cases h1 : s = "checkmate"
  · subst h1
    by_cases h2 : cp = some "white" <;> simp [h2, optMem]
  · by_cases h2 : s ∈ rustDrawStatuses <;> simp [h1, h2, optMem]

theorem rustTerminal_iff (s : String) :
    s ∈ rustTerminalStatuses ↔ (s = "checkmate" ∨ s ∈ rustDrawStatuses) := by
  simp [rustTerminalStatuses, rustDrawStatuses]

theorem rust_result_consistency (raw : RustRaw) :
    ((rustNormGame raw).gameOver = true) ↔ (rustNormGame raw).result ≠ "*" := by
  show (optMem raw.status rustTerminalStatuses = true) ↔
    rustDeriveResult raw.status raw.currentPlayer ≠ "*"
  cases hs : raw.status with
  | none => simp [optMem, rustDeriveResult]
  | some s =>
    simp only [optMem, decide_eq_true_eq]
    rw [rustDeriveResult_ne_star, rustTerminal_iff]

theorem goDeriveResult_ne_star (s : String) :
    goDeriveResult (some s) ≠ "*" ↔ s ∈ goTerminalStatuses := by
  unfold goDeriveResult
  by_cases h1 : s = "white_wins"
  · subst h1; simp [goTerminalStatuses]
  · by_cases h2 : s = "black_wins"
    · subst h2; simp [goTerminalStatuses]
    · by_cases h3 : s ∈ goDrawStatuses
      · have : s ∈ goTerminalStatuses := by
          simp [goDrawStatuses] at h3
          simp [goTerminalStatuses]
          tauto
        simp [h1, h2, h3, optMem, this]
      · have : s ∉ goTerminalStatuses := by
          simp [goDrawStatuses] at h3
          simp [goTerminalStatuses]
          tauto
        simp [h1, h2, h3, optMem, this]

theorem go_result_consistency (raw : GoRaw) :
    ((goNormGame raw).gameOver = true) ↔ (goNormGame raw).result ≠ "*" := by
  show (optMem raw.status goTerminalStatuses = true) ↔ goDeriveResult raw.status ≠ "*"
  cases hs : raw.status with
  | none => simp [optMem, goDeriveResult]
  | some s =>
    simp only [optMem, decide_eq_true_eq]
    exact (goDeriveResult_ne_star s).symm

theorem js_result_consistency (raw : JsRaw)
    (h : raw.checkmate = true → raw.gameOver = true) :
    ((jsNormGame raw).gameOver = true) ↔ (jsNormGame raw).result ≠ "*" := by
  show (raw.gameOver = true) ↔ jsDeriveResult raw ≠ "*"
  unfold jsDeriveResult
  cases hc : raw.checkmate with
  | false => cases hg : raw.gameOver <;> simp [hc, hg]
  | true =>
    have hg := h hc
    by_cases hw : raw.winner = some "white" <;> simp [hc, hg, hw]

/-- C2 (amended): `gameOver == true ↔ result != "*"` holds unconditionally for
the rust and go adapters; for the js adapter it holds for every raw response
in which the `checkmate` flag implies the `gameOver` flag (as the backend
produces), but not for arbitrary raw input. -/
theorem C2_result_consistency_amended (rraw : RustRaw) (graw : GoRaw) (jraw : JsRaw)
    (hjs : jraw.checkmate = true → jraw.gameOver = true) :
    (((rustNormGame rraw).gameOver = true) ↔ (rustNormGame rraw).result ≠ "*") ∧
    (((goNormGame graw).gameOver = true) ↔ (goNormGame graw).result ≠ "*") ∧
    (((jsNormGame jraw).gameOver = true) ↔ (jsNormGame jraw).result ≠ "*") :=
  ⟨rust_result_consistency rraw, go_result_consistency graw,
   js_result_consistency jraw hjs⟩

/-- A js raw response with the `checkmate` flag set but `gameOver` false. -/
def jsInconsistentRaw : JsRaw :=
  { id := "g1", fen := none, turn := none, gameOver := false, checkmate := true,
    stalemate := false, inThreefoldRepetition := false, inFiftyMoveRule := false,
    check := false, winner := none, moveHistory := none }

/-- C2 counterexample: on a raw js response with `checkmate: true` but
`gameOver: false`, `jsNormGame` reports `gameOver = false` together with
`result = "0-1" ≠ "*"`, so the claimed equivalence fails for arbitrary raw
backend responses. -/
theorem C2_result_consistency_counterexample :
    ¬ (((jsNormGame jsInconsistentRaw).gameOver = true) ↔
        (jsNormGame jsInconsistentRaw).result ≠ "*") := by
  decide

/-- Example raw responses with every optional field absent. -/
def exampleRustRaw : RustRaw :=
  ⟨"1", none, none, none, false, none, none⟩

/-- Example go raw response. -/
def exampleGoRaw : GoRaw :=
  ⟨"1", none, none, none, none⟩

/-- Example js raw response (all flags false). -/
def exampleJsRaw : JsRaw :=
  ⟨"1", none, none, false, false, false, false, false, false, none, none⟩

/-- C2 witness: the amended equivalence instantiated on concrete raw
responses (all three adapters report an ongoing game with result `"*"`). -/
theorem C2_result_consistency_amended_witness :
    (((rustNormGame exampleRustRaw).gameOver = true) ↔
      (rustNormGame exampleRustRaw).result ≠ "*") ∧
    (((jsNormGame exampleJsRaw).gameOver = true) ↔
      (jsNormGame exampleJsRaw).result ≠ "*") :=
  ⟨(C2_result_consistency_amended exampleRustRaw exampleGoRaw exampleJsRaw
      (by decide)).1,
   (C2_result_consistency_amended exampleRustRaw exampleGoRaw exampleJsRaw
      (by decide)).2.2⟩

-- ===========================================================================
-- C5: status-mapping totality
-- ===========================================================================

/-- C5: every documented rust and go backend status string maps to exactly one
canonical status, and every unrecognized string maps to `active` (the
functions are total, so no input throws). -/
theorem C5_status_mapping_total (s t : String)
    (hs : s ∉ rustDocumentedStatuses) (ht : t ∉ goDocumentedStatuses) :
    rustNormStatus "active" = .active ∧
    rustNormStatus "check" = .check ∧
    rustNormStatus "checkmate" = .checkmate ∧
    rustNormStatus "stalemate" = .stalemate ∧
    rustNormStatus "draw" = .draw ∧
    rustNormStatus "insufficient_material" = .insufficient_material ∧
    rustNormStatus "threefold_repetition" = .threefold_repetition ∧
    rustNormStatus "fifty_move_rule" = .fifty_move_rule ∧
    rustNormStatus s = .active ∧
    goNormStatus "in_progress" = .active ∧
    goNormStatus "check" = .check ∧
    goNormStatus "white_wins" = .checkmate ∧
    goNormStatus "black_wins" = .checkmate ∧
    goNormStatus "stalemate" = .stalemate ∧
    goNormStatus "draw" = .draw ∧
    goNormStatus "insufficient_material" = .insufficient_material ∧
    goNormStatus "threefold_repetition" = .threefold_repetition ∧
    goNormStatus "fifty_move_rule" = .fifty_move_rule ∧
    goNormStatus t = .active := by
  refine ⟨by decide, by decide, by decide, by decide, by decide, by decide, by decide,
    by decide, ?_, by decide, by decide, by decide, by decide, by decide, by decide,
    by decide, by decide, by decide, ?_⟩
  · simp [rustDocumentedStatuses] at hs
    obtain ⟨h1, h2, h3, h4, h5, h6, h7, h8⟩ := hs
    simp [rustNormStatus, h1, h2, h3, h4, h5, h6, h7, h8]
  · simp [goDocumentedStatuses] at ht
    obtain ⟨h1, h2, h3, h4, h5, h6, h7, h8, h9⟩ := ht
    simp [goNormStatus, h1, h2, h3, h4, h5, h6, h7, h8, h9]

/-- C5 witness: instantiated at the unrecognized strings `bogus` / `weird`,
which both fall back to `active`. -/
theorem C5_status_mapping_total_witness :
    rustNormStatus "bogus" = .active ∧ goNormStatus "weird" = .active :=
  ⟨(C5_status_mapping_total "bogus" "weird" (by decide) (by decide)).2.2.2.2.2.2.2.2.1,
   (C5_status_mapping_total "bogus" "weird" (by decide)
      (by decide)).2.2.2.2.2.2.2.2.2.2.2.2.2.2.2.2.2.2⟩

-- ===========================================================================
-- C10: turn normalization totality
-- ===========================================================================

theorem playerColor_two_valued (p : PlayerColor) :
    p = .white ∨ p = .black := by
  cases p
  · exact Or.inl rfl
  · exact Or.inr rfl

/-- C10: every adapter's `normGame` returns a turn that is exactly `white` or
`black`: the shared color normalizer accepts `white`/`black`/`w`/`b` and
silently maps every other value (including an absent field) to `white`
without throwing. -/
theorem C10_turn_normalization (c : Option String)
    (hc : c ≠ some "white" ∧ c ≠ some "black" ∧ c ≠ some "w" ∧ c ≠ some "b")
    (rraw : RustRaw) (graw : GoRaw) (jraw : JsRaw) :
    assertColor (some "white") = .white ∧
    assertColor (some "black") = .black ∧
    assertColor (some "w") = .white ∧
    assertColor (some "b") = .black ∧
    assertColor none = .white ∧
    assertColor c = .white ∧
    ((rustNormGame rraw).turn = .white ∨ (rustNormGame rraw).turn = .black) ∧
    ((goNormGame graw).turn = .white ∨ (goNormGame graw).turn = .black) ∧
    ((jsNormGame jraw).turn = .white ∨ (jsNormGame jraw).turn = .black) := by
  obtain ⟨h1, h2, h3, h4⟩ := hc
  refine ⟨by decide, by decide, by decide, by decide, by decide, ?_,
    playerColor_two_valued _, playerColor_two_valued _, playerColor_two_valued _⟩
  simp [assertColor, h1, h2, h3, h4]

/-- C10 witness: the unrecognized color `purple` is normalized to `white`,
and concrete raw responses yield a two-valued turn. -/
theorem C10_turn_normalization_witness :
    assertColor (some "purple") = .white ∧
    ((rustNormGame exampleRustRaw).turn = .white ∨
      (rustNormGame exampleRustRaw).turn = .black) :=
  ⟨(C10_turn_normalization (some "purple") (by decide) exampleRustRaw exampleGoRaw
      exampleJsRaw).2.2.2.2.2.1,
   (C10_turn_normalization (some "purple") (by decide) exampleRustRaw exampleGoRaw
      exampleJsRaw).2.2.2.2.2.2.1⟩

-- ===========================================================================
-- C3: backend switching and health checking
-- ===========================================================================

/-- C3 (amended): switching to rust or go constructs a `RemoteProvider`
(carrying any URL override), resets connectivity to Checking
(`connected = null`), and resolves it via exactly one request to
`{url}/health` under the 5-second timeout — Connected on an ok response,
Disconnected with the captured error message otherwise.  The local backend
is Connected immediately with no health check; the js backend, although
nominally remote, is also served by a `LocalProvider` and skips health
checks, resolving to Connected with zero fetches after its Checking reset. -/
theorem C3_backend_switch_health (override : Option String) (out : HealthOutcome)
    (id : BackendId) (hid : id = .rust ∨ id = .go) :
    providerFor id override =
      .remoteProvider id ((override <|> presetUrl id).getD "http://localhost:8083") ∧
    switchBackendConn id = ⟨none, none⟩ ∧
    (checkConnection id override out).fetchedUrls =
      [((override <|> presetUrl id).getD "") ++ "/health"] ∧
    (out = .ok → (checkConnection id override out).conn = ⟨some true, none⟩) ∧
    (∀ s, out = .httpError s → (checkConnection id override out).conn =
      ⟨some false, some ("Health check returned " ++ toString s)⟩) ∧
    (∀ m, out = .netError m → (checkConnection id override out).conn =
      ⟨some false, some m⟩) ∧
    healthCheckTimeoutMs = 5000 ∧
    switchBackendConn .localBackend = ⟨some true, none⟩ ∧
    providerFor .localBackend override = .localProvider ∧
    checkConnection .localBackend override out = ⟨⟨some true, none⟩, []⟩ ∧
    switchBackendConn .js = ⟨none, none⟩ ∧
    providerFor .js override = .localProvider ∧
    checkConnection .js override out = ⟨⟨some true, none⟩, []⟩ := by
  have hlocal : isLocalLike id = false := by
    rcases hid with h | h <;> subst h <;> decide
  have hne : id ≠ .localBackend := by
    rcases hid with h | h <;> subst h <;> decide
  refine ⟨?_, ?_, ?_, ?_, ?_, ?_, rfl, rfl, ?_, ?_, rfl, ?_, ?_⟩
  · simp [providerFor, hlocal]
  · simp [switchBackendConn, hne]
  · cases out <;> simp [checkConnection, hlocal]
  · intro hout; subst hout; simp [checkConnection, hlocal]
  · intro s hout; subst hout; simp [checkConnection, hlocal]
  · intro m hout; subst hout; simp [checkConnection, hlocal]
  · simp [providerFor, isLocalLike]
  · cases out <;> simp [checkConnection, isLocalLike]
  · simp [providerFor, isLocalLike]
  · cases out <;> simp [checkConnection, isLocalLike]

/-- C3 witness: the amended behavior instantiated for the go backend with no
URL override and a failing (HTTP 500) health check. -/
theorem C3_backend_switch_health_witness :
    switchBackendConn .go = ⟨none, none⟩ ∧
    (checkConnection .go none (.httpError 500)).fetchedUrls =
      ["http://localhost:8080" ++ "/health"] ∧
    (checkConnection .go none (.httpError 500)).conn =
      ⟨some false, some ("Health check returned " ++ toString 500)⟩ :=
  ⟨(C3_backend_switch_health none (.httpError 500) .go (Or.inr rfl)).2.1,
   (C3_backend_switch_health none (.httpError 500) .go (Or.inr rfl)).2.2.1,
   (C3_backend_switch_health none (.httpError 500) .go (Or.inr rfl)).2.2.2.2.1 500 rfl⟩

/-- C3 counterexample: the js backend is remote according to the claim, yet
switching to it constructs a `LocalProvider`, and its connection check
resolves to Connected while issuing zero health-check requests (even when a
real health check would have failed). -/
theorem C3_backend_switch_health_counterexample :
    providerFor .js none ≠
      .remoteProvider .js ((none <|> presetUrl .js).getD "http://localhost:8083") ∧
    (checkConnection .js none (.httpError 500)).fetchedUrls = [] ∧
    (checkConnection .js none (.httpError 500)).conn.connected = some true := by
  refine ⟨?_, rfl, rfl⟩
  decide

-- ===========================================================================
-- C4: undo capability guard
-- ===========================================================================

/-- C4: `undoMove` on the go backend (whose `capabilities.undo` is false)
fails synchronously with the descriptive capability message and issues no
HTTP request; on rust and js (undo capable) it issues exactly one POST to
`{prefix}/games/{id}/undo`. -/
theorem C4_undo_capability_guard (baseUrl gameId : String) :
    (REMOTE_CAPS .go).undo = false ∧
    undoMove .go baseUrl gameId =
      .error "Undo is not supported by the go backend" ∧
    (REMOTE_CAPS .rust).undo = true ∧
    undoMove .rust baseUrl gameId =
      .ok ⟨"POST", baseUrl ++ "/api" ++ "/games/" ++ gameId ++ "/undo"⟩ ∧
    (REMOTE_CAPS .js).undo = true ∧
    undoMove .js baseUrl gameId =
      .ok ⟨"POST", baseUrl ++ "/api/v1" ++ "/games/" ++ gameId ++ "/undo"⟩ :=
  ⟨rfl, rfl, rfl, rfl, rfl, rfl⟩

-- ===========================================================================
-- C9: remote error extraction
-- ===========================================================================

/-- C9: for every non-2xx JSON response the request helper raises an error
carrying the HTTP status and the code/message from either the
`{error: {code, message}}` shape or the `{error: string, message: string}`
shape; for a non-2xx text/plain response the body text is the error message
verbatim (with code `HTTP_ERROR`). -/
theorem C9_error_extraction (status : Nat) (statusText text : String)
    (body : JsonErrorBody) (hnot2xx : resOk status = false) :
    (∀ c m, body.error = .objv (some c) (some m) →
      processJsonResponse status statusText body = .error ⟨status, c, m⟩) ∧
    (∀ s m, body.error = .strv s → body.message = some m →
      processJsonResponse status statusText body = .error ⟨status, s, m⟩) ∧
    processTextResponse status text = .error ⟨status, "HTTP_ERROR", text⟩ := by
  refine ⟨?_, ?_, ?_⟩
  · intro c m herr
    simp [processJsonResponse, hnot2xx, extractApiError, herr, jsString]
  · intro s m herr hmsg
    simp [processJsonResponse, hnot2xx, extractApiError, herr, hmsg]
  · simp [processTextResponse, hnot2xx]

/-- C9 witness: a 404 response with each error-body shape, and a text/plain
500 body used verbatim. -/
theorem C9_error_extraction_witness :
    processJsonResponse 404 "Not Found" ⟨.objv (some "NOT_FOUND") (some "no such game"), none⟩ =
      .error ⟨404, "NOT_FOUND", "no such game"⟩ ∧
    processJsonResponse 404 "Not Found" ⟨.strv "NOT_FOUND", some "missing game"⟩ =
      .error ⟨404, "NOT_FOUND", "missing game"⟩ ∧
    processTextResponse 500 "engine exploded" =
      .error ⟨500, "HTTP_ERROR", "engine exploded"⟩ :=
  ⟨(C9_error_extraction 404 "Not Found" "" ⟨.objv (some "NOT_FOUND") (some "no such game"), none⟩
      (by decide)).1 "NOT_FOUND" "no such game" rfl,
   (C9_error_extraction 404 "Not Found" "" ⟨.strv "NOT_FOUND", some "missing game"⟩
      (by decide)).2.1 "NOT_FOUND" "missing game" rfl rfl,
   (C9_error_extraction 500 "Internal Server Error" "engine exploded"
      ⟨.absent, none⟩ (by decide)).2.2⟩

end ReactChess
